import Mathlib

/-!
# Verification of the pg-workflows orchestrator core

A shallow embedding of the workflow engine in `src/engine.ts` and
`src/db/queries.ts`.  The engine mutates a single PostgreSQL row per workflow
run; every mutation goes through `updateWorkflowRun`.  We model the persisted
run row as a Lean structure, each engine code path that mutates it as a pure
function on that structure, and a dispatch history as a list of such
operations applied in sequence (the sequential semantics: each operation sees
the row state left by the previous one, which matches the row-lock discipline
described in the source).

Timestamps are abstract `Nat` ticks; JSON values are a small inductive with a
distinguished `{}` (`JsonVal.obj []`).  A JS `undefined` is modelled as
`Option.none` wherever the source distinguishes it (`x !== undefined` tests).
-/

/-- Primitive JSON values, used as object field values. -/
inductive JsonPrim where
  | null : JsonPrim
  | boolean : Bool → JsonPrim
  | num : Int → JsonPrim
  | str : String → JsonPrim
deriving DecidableEq, Repr

/-- JSON values as stored in the `input`/`output`/`timeline` columns.
`null` is a value (JS `null`), distinct from an absent field, which is
modelled with `Option`.  The engine never looks inside these values (they
are opaque payloads), so one level of object nesting is enough for every
property at issue; what matters is equality and the
`undefined` / `null` / `{}` distinctions.  `JsonVal.obj []` is the empty
object `{}` that the source substitutes for `undefined` results. -/
inductive JsonVal where
  | null : JsonVal
  | boolean : Bool → JsonVal
  | num : Int → JsonVal
  | str : String → JsonVal
  | obj : List (String × JsonPrim) → JsonVal
deriving DecidableEq, Repr

/-- `status` column values (`WorkflowStatus` in `src/types.ts`). -/
inductive WorkflowStatus where
  | pending | running | paused | completed | failed | cancelled
deriving DecidableEq, Repr

/-- The `waitFor` field of a timeline wait-for marker
(`TimelineWaitForEntry` in `src/engine.ts`). -/
structure WaitForInfo where
  eventName : String
  timeoutMs : Option Nat
deriving DecidableEq, Repr

/-- One timeline entry.  The source stores plain JSON objects and probes them
with `'output' in entry` / `'waitFor' in entry`; `es-toolkit`'s `merge` is a
deep merge, so a write of `{output, timestamp}` into an entry keeps an
existing `waitFor` field and vice versa.  We model an entry as a record of
the two optional fields plus the timestamp. -/
structure TimelineEntry where
  output : Option JsonVal
  waitFor : Option WaitForInfo
  timestamp : Nat
deriving DecidableEq, Repr

/-- The `timeline` JSONB column: a finite map from string key to entry,
modelled as an association list with unique keys (JS object keys are
unique). -/
abbrev Timeline := List (String × TimelineEntry)

/-- Lookup of `timeline[k]` (first — hence only — binding of the key). -/
def Timeline.get (t : Timeline) (k : String) : Option TimelineEntry :=
  match t with
  | [] => none
  | (k', e) :: rest => if k' == k then some e else Timeline.get rest k

/-- `merge(timeline, {[k]: {output: v, timestamp: ts}})`: deep merge sets the
`output` and `timestamp` fields of the entry at `k`, keeping an existing
`waitFor` field; a fresh entry is created when `k` is absent. -/
def Timeline.setOutput (t : Timeline) (k : String) (v : JsonVal) (ts : Nat) : Timeline :=
  match t with
  | [] => [(k, { output := some v, waitFor := none, timestamp := ts })]
  | (k', e) :: rest =>
    if k' == k then (k', { e with output := some v, timestamp := ts }) :: rest
    else (k', e) :: Timeline.setOutput rest k v ts

/-- `merge(timeline, {[k]: {waitFor: w, timestamp: ts}})`: deep merge sets the
`waitFor` and `timestamp` fields, keeping an existing `output` field. -/
def Timeline.setWaitFor (t : Timeline) (k : String) (w : WaitForInfo) (ts : Nat) : Timeline :=
  match t with
  | [] => [(k, { output := none, waitFor := some w, timestamp := ts })]
  | (k', e) :: rest =>
    if k' == k then (k', { e with waitFor := some w, timestamp := ts }) :: rest
    else (k', e) :: Timeline.setWaitFor rest k w ts

/-- `timeline[k]?.output` guarded by `'output' in entry && output !== undefined`
(the cache probe used by `runStep`, `waitForEvent` and the dispatcher). -/
def outputAt (t : Timeline) (k : String) : Option JsonVal :=
  match t.get k with
  | some e => e.output
  | none => none

/-- `'waitFor' in timeline[k]` (the wait-for marker probe of the dispatcher,
`src/engine.ts` lines 632-636). -/
def waitForAt (t : Timeline) (k : String) : Option WaitForInfo :=
  match t.get k with
  | some e => e.waitFor
  | none => none

/-- The persisted `workflow_runs` row, fields as produced by
`mapRowToWorkflowRun` in `src/db/queries.ts`.  SQL `NULL` for `output` and a
stored JSON `null` both surface as `null` in the source, so `output` is a
plain `JsonVal` initialised to `JsonVal.null`. -/
structure WorkflowRun where
  id : String
  createdAt : Nat
  updatedAt : Nat
  resourceId : Option String
  workflowId : String
  status : WorkflowStatus
  input : JsonVal
  output : JsonVal
  error : Option String
  currentStepId : String
  timeline : Timeline
  pausedAt : Option Nat
  resumedAt : Option Nat
  completedAt : Option Nat
  timeoutAt : Option Nat
  retryCount : Nat
  maxRetries : Nat
  jobId : Option String
  cron : Option String
  timezone : Option String
deriving DecidableEq, Repr

/-- The partial update payload accepted by `updateWorkflowRun`
(`src/db/queries.ts` lines 190-283).  A field is added to the SQL `SET`
clause exactly when `data.<field> !== undefined`; `none` here means the field
is absent from `data`.  `pausedAt` is `Option (Option Nat)` because the
dispatcher passes the explicit value `null` (`pausedAt: null`). -/
structure UpdateData where
  status : Option WorkflowStatus := none
  currentStepId : Option String := none
  timeline : Option Timeline := none
  pausedAt : Option (Option Nat) := none
  resumedAt : Option Nat := none
  completedAt : Option Nat := none
  output : Option JsonVal := none
  error : Option String := none
  retryCount : Option Nat := none
  jobId : Option String := none
deriving Repr

/-- `updateWorkflowRun` (`src/db/queries.ts` lines 190-283) applied to a row
it matched: merges exactly the supplied fields and always sets
`updated_at = now`.  No `SET` clause exists for `id`, `created_at`,
`workflow_id`, `resource_id`, `input`, `max_retries`, `timeout_at`, `cron`
or `timezone`. -/
def updateWorkflowRun (r : WorkflowRun) (d : UpdateData) (now : Nat) : WorkflowRun :=
  { r with
    updatedAt := now
    status := d.status.getD r.status
    currentStepId := d.currentStepId.getD r.currentStepId
    timeline := d.timeline.getD r.timeline
    pausedAt := d.pausedAt.getD r.pausedAt
    resumedAt := match d.resumedAt with | some t => some t | none => r.resumedAt
    completedAt := match d.completedAt with | some t => some t | none => r.completedAt
    output := d.output.getD r.output
    error := match d.error with | some e => some e | none => r.error
    retryCount := d.retryCount.getD r.retryCount
    jobId := match d.jobId with | some j => some j | none => r.jobId }

/-- `insertWorkflowRun` (`src/db/queries.ts` lines 62-133) as invoked by
`_createWorkflowRun` (`src/engine.ts` lines 344-364): a fresh row with
`status=RUNNING`, empty timeline, `retry_count=0`, `current_step_id` set to
the first static step id. -/
def insertWorkflowRun (id workflowId initialStepId : String) (resourceId : Option String)
    (input : JsonVal) (maxRetries : Nat) (timeoutAt : Option Nat)
    (cron timezone : Option String) (now : Nat) : WorkflowRun :=
  { id := id
    createdAt := now
    updatedAt := now
    resourceId := resourceId
    workflowId := workflowId
    status := WorkflowStatus.running
    input := input
    output := JsonVal.null
    error := none
    currentStepId := initialStepId
    timeline := []
    pausedAt := none
    resumedAt := none
    completedAt := none
    timeoutAt := timeoutAt
    retryCount := 0
    maxRetries := maxRetries
    jobId := none
    cron := cron
    timezone := timezone }

example : outputAt (Timeline.setOutput [] "a" (JsonVal.num 7) 3) "a" = some (JsonVal.num 7) := by
  decide

example : outputAt (Timeline.setWaitFor [] "a-wait-for" ⟨"e", none⟩ 3) "a" = none := by
  decide

/-! ## Engine operations

Each function below embeds one row-mutating code path of
`src/engine.ts`, with the transaction semantics of
`withPostgresTransaction` (`src/db/queries.ts` lines 387-400): the callback's
writes are committed together on normal return and all discarded by
`ROLLBACK` when the callback throws. -/

/-- `result === undefined ? {} : result` — the normalisation applied to step
body results (`src/engine.ts` lines 901, 911) and to the handler result at
completion (line 748).  Note this replaces only `undefined`, not `null`. -/
def normalizeResult (r : Option JsonVal) : JsonVal :=
  match r with
  | some v => v
  | none => JsonVal.obj []

/-- The statuses on which `runStep` / `waitForEvent` short-circuit without
touching the row (`src/engine.ts` lines 849-860 and 952-963). -/
def statusBlocksStep (s : WorkflowStatus) : Bool :=
  s == WorkflowStatus.cancelled || s == WorkflowStatus.paused || s == WorkflowStatus.failed

/-- The outcome of one `step.run` call, as observed by the handler. -/
inductive StepOutcome where
  | skipped
  | cached (v : JsonVal)
  | ran (v : JsonVal)
  | threw (msg stack : String)
deriving DecidableEq, Repr

/-- The behaviour of the user-supplied step body at this invocation:
it returns a value (possibly JS `undefined`, i.e. `none`) or throws. -/
inductive BodyResult where
  | ok (v : Option JsonVal)
  | thrown (msg stack : String)
deriving DecidableEq, Repr

/-- The transaction callback of `runStep` (`src/engine.ts` lines 840-933).
`r` is both the locked row (`persistedRun`) and the dispatch closure's `run`
(in the sequential semantics they coincide; the closure is refreshed from
every `updateRun` return value).  On a body exception the callback performs
the `status=FAILED, error=message+stack` update and then rethrows
(lines 919-931); the `.error` payload carries that uncommitted state. -/
def runStepTx (r : WorkflowRun) (stepId : String) (body : BodyResult) (now : Nat) :
    Except (String × String × WorkflowRun) (WorkflowRun × StepOutcome) :=
  if statusBlocksStep r.status then
    Except.ok (r, StepOutcome.skipped)
  else
    match outputAt r.timeline stepId with
    | some v => Except.ok (r, StepOutcome.cached v)
    | none =>
      let r1 := updateWorkflowRun r { currentStepId := some stepId } now
      match body with
      | BodyResult.ok v =>
        let r2 := updateWorkflowRun r1
          { timeline := some (Timeline.setOutput r.timeline stepId (normalizeResult v) now) } now
        Except.ok (r2, StepOutcome.ran (normalizeResult v))
      | BodyResult.thrown msg stack =>
        let rFailed := updateWorkflowRun r1
          { status := some WorkflowStatus.failed, error := some (msg ++ "\n" ++ stack) } now
        Except.error (msg, stack, rFailed)

/-- `runStep` = `withPostgresTransaction(db, tx)`: commit on success, and on a
thrown body the `ROLLBACK` (`src/db/queries.ts` line 397) discards every
write of the callback — including the `FAILED` update — before the exception
reaches the dispatcher, leaving the persisted row exactly as it was. -/
def runStep (r : WorkflowRun) (stepId : String) (body : BodyResult) (now : Nat) :
    WorkflowRun × StepOutcome :=
  match runStepTx r stepId body now with
  | Except.ok res => res
  | Except.error (msg, stack, _) => (r, StepOutcome.threw msg stack)

/-- `waitForEvent` (`src/engine.ts` lines 936-999), also the implementation of
`step.pause` (event `__internal_pause`) and the marker half of
`step.waitUntil`.  Not wrapped in a transaction in the source; a single
`updateRun` performs the pause. -/
def waitForEvent (r : WorkflowRun) (stepId eventName : String) (timeoutMs : Option Nat)
    (now : Nat) : WorkflowRun :=
  if statusBlocksStep r.status then r
  else
    match outputAt r.timeline stepId with
    | some _ => r
    | none =>
      updateWorkflowRun r
        { status := some WorkflowStatus.paused
          currentStepId := some stepId
          timeline := some (Timeline.setWaitFor r.timeline (stepId ++ "-wait-for")
            ⟨eventName, timeoutMs⟩ now)
          pausedAt := some (some now) } now

/-- The dispatcher's PAUSED-run handling (`src/engine.ts` lines 631-674),
entered only when the loaded run is PAUSED.  When the wait-for marker at
`"<currentStepId>-wait-for"` matches the incoming event name and the current
step has no output yet, the event data (`?? {}`) is written as the step's
output; otherwise the run is merely flipped back to RUNNING. -/
def eventResume (r : WorkflowRun) (eventName : Option String) (eventData : Option JsonVal)
    (jobId : String) (now : Nat) : WorkflowRun :=
  if r.status != WorkflowStatus.paused then r
  else
    let matched :=
      match waitForAt r.timeline (r.currentStepId ++ "-wait-for") with
      | some w => eventName == some w.eventName && (outputAt r.timeline r.currentStepId).isNone
      | none => false
    if matched then
      updateWorkflowRun r
        { status := some WorkflowStatus.running
          pausedAt := some none
          resumedAt := some now
          timeline := some (Timeline.setOutput r.timeline r.currentStepId
            (normalizeResult eventData) now)
          jobId := some jobId } now
    else
      updateWorkflowRun r
        { status := some WorkflowStatus.running
          pausedAt := some none
          resumedAt := some now
          jobId := some jobId } now

/-- Hook invocations as observed through `invokeHook`. -/
inductive HookCall where
  | onStart
  | onSuccess (output : JsonVal)
  | onComplete (ok : Bool) (payload : JsonVal)
  | onFailure (error : String)
  | onCancel
deriving DecidableEq, Repr

/-- The dispatcher's post-handler completion check (`src/engine.ts` lines
742-775): after the handler returned, the run is reloaded; only if its
status is RUNNING and `currentStepId` equals the id of the last step in the
workflow's static step list is it marked COMPLETED, with
`output = (result === undefined ? {} : result)`, `completedAt = now`, and the
`onSuccess` then `onComplete({ok:true, output})` hooks fired.  `steps` is the
workflow's static step id list. -/
def dispatchComplete (steps : List String) (result : Option JsonVal) (jobId : String)
    (now : Nat) (r : WorkflowRun) : WorkflowRun × List HookCall :=
  if r.status == WorkflowStatus.running && steps.getLast? == some r.currentStepId then
    let res := normalizeResult result
    (updateWorkflowRun r
      { status := some WorkflowStatus.completed
        output := some res
        completedAt := some now
        jobId := some jobId } now,
     [HookCall.onSuccess res, HookCall.onComplete true res])
  else (r, [])

/-- `delay = 2 ** run.retryCount * 1000` (`src/engine.ts` line 787): the
retry delay computed from the pre-increment retry count, so the k-th retry
(retryCount = k-1 when the failure is handled) is delayed `2^(k-1) * 1000`
ms.  Hardcoded: no factor, minimum, cap or jitter is read from any
configuration. -/
def retryDelay (retryCount : Nat) : Nat :=
  2 ^ retryCount * 1000

/-- The dispatcher's catch block (`src/engine.ts` lines 776-827): with
retries remaining only `retryCount` is incremented (status untouched) and the
job re-enqueued after `retryDelay`; with retries exhausted the run is marked
FAILED with the error message (no stack) and `onFailure` /
`onComplete({ok:false})` fire before the rethrow. -/
def dispatchCatch (r : WorkflowRun) (errMsg jobId : String) (now : Nat) :
    WorkflowRun × List HookCall :=
  if r.retryCount < r.maxRetries then
    (updateWorkflowRun r { retryCount := some (r.retryCount + 1), jobId := some jobId } now, [])
  else
    (updateWorkflowRun r
      { status := some WorkflowStatus.failed
        error := some errMsg
        jobId := some jobId } now,
     [HookCall.onFailure errMsg, HookCall.onComplete false (JsonVal.str errMsg)])

/-- The public `pauseWorkflow` API (`src/engine.ts` lines 389-414): a single
`updateRun` setting `status=PAUSED` and `pausedAt`; nothing else — no
timeline marker is written and no step/output check is made. -/
def pauseWorkflow (r : WorkflowRun) (now : Nat) : WorkflowRun :=
  updateWorkflowRun r
    { status := some WorkflowStatus.paused, pausedAt := some (some now) } now

/-- The row mutation of the public `cancelWorkflow` API (`src/engine.ts`
lines 436-465): a single `updateRun` setting `status=CANCELLED`,
unconditionally on the current status. -/
def cancelWorkflowRun (r : WorkflowRun) (now : Nat) : WorkflowRun :=
  updateWorkflowRun r { status := some WorkflowStatus.cancelled } now

/-- `if (run.retryCount === 0)` — the dispatcher's guard deciding whether the
`onStart` hook fires on this dispatch (`src/engine.ts` line 676).  It is
evaluated on every dispatch, after the PAUSED-run handling. -/
def onStartFires (r : WorkflowRun) : Bool :=
  r.retryCount == 0

/-- The row-mutating engine operations.  `triggerEvent` and `resumeWorkflow`
only enqueue jobs (no row write) and are represented by the `eventResume`
dispatch they eventually cause. -/
inductive EngineOp where
  | stepRun (stepId : String) (body : BodyResult) (now : Nat)
  | stepWaitFor (stepId eventName : String) (timeoutMs : Option Nat) (now : Nat)
  | resume (eventName : Option String) (eventData : Option JsonVal) (jobId : String) (now : Nat)
  | complete (steps : List String) (result : Option JsonVal) (jobId : String) (now : Nat)
  | failDispatch (errMsg jobId : String) (now : Nat)
  | pauseApi (now : Nat)
  | cancelApi (now : Nat)
deriving DecidableEq, Repr

/-- The state transition of one engine operation on the persisted row. -/
def applyOp (op : EngineOp) (r : WorkflowRun) : WorkflowRun :=
  match op with
  | EngineOp.stepRun stepId body now => (runStep r stepId body now).1
  | EngineOp.stepWaitFor stepId eventName timeoutMs now =>
      waitForEvent r stepId eventName timeoutMs now
  | EngineOp.resume eventName eventData jobId now => eventResume r eventName eventData jobId now
  | EngineOp.complete steps result jobId now => (dispatchComplete steps result jobId now r).1
  | EngineOp.failDispatch errMsg jobId now => (dispatchCatch r errMsg jobId now).1
  | EngineOp.pauseApi now => pauseWorkflow r now
  | EngineOp.cancelApi now => cancelWorkflowRun r now

/-- A history of engine operations applied in sequence. -/
def applyOps (ops : List EngineOp) (r : WorkflowRun) : WorkflowRun :=
  match ops with
  | [] => r
  | op :: rest => applyOps rest (applyOp op r)

/-- `op` invokes the user body for step `S`: only `step.run` does, and only
past the status guard and on a cache miss (`src/engine.ts` line 892 is
reached only in the `else` of line 873). -/
def invokesBodyAt (op : EngineOp) (r : WorkflowRun) (S : String) : Bool :=
  match op with
  | EngineOp.stepRun stepId _ _ =>
      stepId == S && !statusBlocksStep r.status && (outputAt r.timeline S).isNone
  | _ => false

/-! ## Database layer: lookup, update, insert over a table of runs -/

/-- Row match of `getWorkflowRun` / `updateWorkflowRun`'s `WHERE` clause
(`src/db/queries.ts` lines 147-159, 259-261): `id = runId`, and additionally
`resource_id = resourceId` when a resource id is supplied. -/
def rowMatches (runId : String) (resourceId : Option String) (r : WorkflowRun) : Bool :=
  r.id == runId &&
    match resourceId with
    | some rid => r.resourceId == some rid
    | none => true

/-- `getWorkflowRun` over a table: the first matching row, `none` when the id
is absent or the supplied resource id does not match. -/
def findRun (db : List WorkflowRun) (runId : String) (resourceId : Option String) :
    Option WorkflowRun :=
  db.find? (rowMatches runId resourceId)

/-- `updateWorkflowRun` over a table: applies the partial update to the
matching row and returns it, or `none` ("not found", which the engine's
`updateRun` surfaces as `WorkflowRunNotFoundError`). -/
def updateRunInDb (db : List WorkflowRun) (runId : String) (resourceId : Option String)
    (d : UpdateData) (now : Nat) : Option (List WorkflowRun × WorkflowRun) :=
  match findRun db runId resourceId with
  | none => none
  | some r =>
    let r' := updateWorkflowRun r d now
    some (db.map (fun x => if rowMatches runId resourceId x then r' else x), r')

/-- The `cancelWorkflow` API over a table (`src/engine.ts` lines 436-465):
one `updateRun` with `{status: CANCELLED}` and no precondition read of the
current status. -/
def cancelWorkflowDb (db : List WorkflowRun) (runId : String) (resourceId : Option String)
    (now : Nat) : Option (List WorkflowRun × WorkflowRun) :=
  updateRunInDb db runId resourceId { status := some WorkflowStatus.cancelled } now

/-- Run ids as allocated by `generateKSUID('run')`: fresh and pairwise
distinct; we index them by an allocation counter. -/
def runIdOf (n : Nat) : String :=
  "run_" ++ toString n

/-- `startWorkflow` → `_createWorkflowRun` (`src/engine.ts` lines 279-387):
validates that the workflow has steps, then unconditionally inserts a fresh
RUNNING row and enqueues its first dispatch.  The caller-supplied
`idempotencyKey` is accepted here because callers (and the test suite) pass
it, but the source's parameter destructuring
`{resourceId, workflowId, input, options}` drops it: no code path reads it,
no existing run is looked up, and the inserted row does not store it. -/
def startWorkflow (db : List WorkflowRun) (nextId : Nat) (workflowId : String)
    (steps : List String) (wfRetries : Option Nat) (input : JsonVal)
    (resourceId : Option String) (optRetries : Option Nat)
    (_idempotencyKey : Option String) (now : Nat) :
    Except String (List WorkflowRun × WorkflowRun × Nat) :=
  match steps with
  | [] => Except.error ("Workflow " ++ workflowId ++ " has no steps")
  | s0 :: _ =>
    let run := insertWorkflowRun (runIdOf nextId) workflowId s0 resourceId input
      (optRetries.getD (wfRetries.getD 0)) none none none now
    Except.ok (db ++ [run], run, nextId + 1)

/-! ## Progress computation -/

/-- JS `Math.min` of two rationals. -/
def mathMin (a b : Rat) : Rat :=
  if a ≤ b then a else b

/-- JS `Math.round` on the non-negative rationals we use: round half up. -/
def jsRound (q : Rat) : Int :=
  Int.floor (q + 1/2)

/-- `Math.round(p * 100) / 100` (`src/engine.ts` line 585). -/
def round2 (q : Rat) : Rat :=
  (jsRound (q * 100) : Rat) / 100

/-- `completedSteps`: timeline entries that are objects with a defined
`output` (`src/engine.ts` lines 558-564).  Wait-for markers have no `output`
field and are not counted. -/
def completedStepsCount (t : Timeline) : Nat :=
  (t.filter (fun p => p.2.output.isSome)).length

/-- The `completionPercentage` computed by `checkProgress`
(`src/engine.ts` lines 539-588), as an exact rational.  `steps` is the
workflow's static step id list. -/
def completionPercentage (steps : List String) (r : WorkflowRun) : Rat :=
  if steps.length = 0 then 0
  else
    let pct : Rat :=
      if r.status == WorkflowStatus.completed then 100
      else if r.status == WorkflowStatus.failed || r.status == WorkflowStatus.cancelled then
        mathMin ((completedStepsCount r.timeline : Rat) / (steps.length : Rat) * 100) 100
      else
        match steps.findIdx? (fun s => s == r.currentStepId) with
        | some idx => (idx : Rat) / (steps.length : Rat) * 100
        | none => mathMin ((r.timeline.length : Rat) / (steps.length : Rat) * 100) 100
    round2 pct

/-! ## Spec-side comparison definitions

These two definitions follow the specification's words, not the source; they
exist only to be compared against the source-derived definitions above. -/

/-- Modelled from the spec: the claimed retry backoff
`min(factor^(retryCount-1) * minDelay, maxDelay)` for the k-th retry, with
`maxDelay` unbounded when absent.  No code in the engine reads such a
configuration (`src/types.ts` has no `retry` option and `src/engine.ts`
line 787 hardcodes the delay); only `src/backoff.test.ts` exercises it. -/
def specBackoffDelay (factor minDelay : Nat) (maxDelay : Option Nat) (k : Nat) : Nat :=
  match maxDelay with
  | some m => min (factor ^ (k - 1) * minDelay) m
  | none => factor ^ (k - 1) * minDelay

/-- Modelled from the spec: `output = result ?? {}` — JS nullish coalescing
replaces both `undefined` and `null` by `{}`.  The source instead uses
`result === undefined ? {} : result` (see `normalizeResult`). -/
def specNullishOutput (result : Option JsonVal) : JsonVal :=
  match result with
  | none => JsonVal.obj []
  | some JsonVal.null => JsonVal.obj []
  | some v => v

/-! ## Timeline lemmas -/

theorem timeline_get_setOutput (t : Timeline) (k k' : String) (v : JsonVal) (ts : Nat) :
    (Timeline.setOutput t k v ts).get k' =
      if k = k' then
        match t.get k with
        | some e => some { e with output := some v, timestamp := ts }
        | none => some { output := some v, waitFor := none, timestamp := ts }
      else t.get k' := by
  induction t with
  | nil =>
    simp only [Timeline.setOutput, Timeline.get]
    split_ifs with h1 h2 h2
    · rfl
    · exact absurd (by simpa using h1) h2
    · exact absurd (by simpa using h2) h1
    · rfl
  | cons p rest ih =>
    obtain ⟨k0, e⟩ := p
    simp only [Timeline.setOutput, Timeline.get]
    by_cases h0 : k0 = k
    · subst h0
      simp only [beq_self_eq_true, if_true, Timeline.get]
      by_cases h1 : k0 = k'
      · subst h1; simp
      · simp [h1, show (k0 == k') = false by simpa using h1]
    · simp only [show (k0 == k) = false by simpa using h0, Bool.false_eq_true, if_false,
        Timeline.get]
      by_cases h1 : k0 = k'
      · subst h1
        have hne : ¬ k0 = k := h0
        simp [show ¬ k = k0 from fun h => hne h.symm]
      · simp only [show (k0 == k') = false by simpa using h1, Bool.false_eq_true, if_false]
        exact ih

theorem timeline_get_setWaitFor (t : Timeline) (k k' : String) (w : WaitForInfo) (ts : Nat) :
    (Timeline.setWaitFor t k w ts).get k' =
      if k = k' then
        match t.get k with
        | some e => some { e with waitFor := some w, timestamp := ts }
        | none => some { output := none, waitFor := some w, timestamp := ts }
      else t.get k' := by
  induction t with
  | nil =>
    simp only [Timeline.setWaitFor, Timeline.get]
    split_ifs with h1 h2 h2
    · rfl
    · exact absurd (by simpa using h1) h2
    · exact absurd (by simpa using h2) h1
    · rfl
  | cons p rest ih =>
    obtain ⟨k0, e⟩ := p
    simp only [Timeline.setWaitFor, Timeline.get]
    by_cases h0 : k0 = k
    · subst h0
      simp only [beq_self_eq_true, if_true, Timeline.get]
      by_cases h1 : k0 = k'
      · subst h1; simp
      · simp [h1, show (k0 == k') = false by simpa using h1]
    · simp only [show (k0 == k) = false by simpa using h0, Bool.false_eq_true, if_false,
        Timeline.get]
      by_cases h1 : k0 = k'
      · subst h1
        simp [show ¬ k = k0 from fun h => h0 h.symm]
      · simp only [show (k0 == k') = false by simpa using h1, Bool.false_eq_true, if_false]
        exact ih

theorem outputAt_setOutput (t : Timeline) (k k' : String) (v : JsonVal) (ts : Nat) :
    outputAt (Timeline.setOutput t k v ts) k' = if k = k' then some v else outputAt t k' := by
  simp only [outputAt, timeline_get_setOutput]
  split_ifs with h
  · cases t.get k <;> rfl
  · rfl

theorem outputAt_setWaitFor (t : Timeline) (k k' : String) (w : WaitForInfo) (ts : Nat) :
    outputAt (Timeline.setWaitFor t k w ts) k' = outputAt t k' := by
  simp only [outputAt, timeline_get_setWaitFor]
  split_ifs with h
  · subst h; cases t.get k <;> rfl
  · rfl

theorem waitForAt_setWaitFor_self (t : Timeline) (k : String) (w : WaitForInfo) (ts : Nat) :
    waitForAt (Timeline.setWaitFor t k w ts) k = some w := by
  simp only [waitForAt, timeline_get_setWaitFor, if_pos rfl]
  cases t.get k <;> rfl

/-! ## Projection lemmas for `updateWorkflowRun` -/

@[simp] theorem updateRun_id (r : WorkflowRun) (d : UpdateData) (now : Nat) :
    (updateWorkflowRun r d now).id = r.id := rfl

@[simp] theorem updateRun_createdAt (r : WorkflowRun) (d : UpdateData) (now : Nat) :
    (updateWorkflowRun r d now).createdAt = r.createdAt := rfl

@[simp] theorem updateRun_updatedAt (r : WorkflowRun) (d : UpdateData) (now : Nat) :
    (updateWorkflowRun r d now).updatedAt = now := rfl

@[simp] theorem updateRun_resourceId (r : WorkflowRun) (d : UpdateData) (now : Nat) :
    (updateWorkflowRun r d now).resourceId = r.resourceId := rfl

@[simp] theorem updateRun_workflowId (r : WorkflowRun) (d : UpdateData) (now : Nat) :
    (updateWorkflowRun r d now).workflowId = r.workflowId := rfl

@[simp] theorem updateRun_input (r : WorkflowRun) (d : UpdateData) (now : Nat) :
    (updateWorkflowRun r d now).input = r.input := rfl

@[simp] theorem updateRun_maxRetries (r : WorkflowRun) (d : UpdateData) (now : Nat) :
    (updateWorkflowRun r d now).maxRetries = r.maxRetries := rfl

@[simp] theorem updateRun_timeoutAt (r : WorkflowRun) (d : UpdateData) (now : Nat) :
    (updateWorkflowRun r d now).timeoutAt = r.timeoutAt := rfl

@[simp] theorem updateRun_cron (r : WorkflowRun) (d : UpdateData) (now : Nat) :
    (updateWorkflowRun r d now).cron = r.cron := rfl

@[simp] theorem updateRun_timezone (r : WorkflowRun) (d : UpdateData) (now : Nat) :
    (updateWorkflowRun r d now).timezone = r.timezone := rfl

@[simp] theorem updateRun_status (r : WorkflowRun) (d : UpdateData) (now : Nat) :
    (updateWorkflowRun r d now).status = d.status.getD r.status := rfl

@[simp] theorem updateRun_currentStepId (r : WorkflowRun) (d : UpdateData) (now : Nat) :
    (updateWorkflowRun r d now).currentStepId = d.currentStepId.getD r.currentStepId := rfl

@[simp] theorem updateRun_timeline (r : WorkflowRun) (d : UpdateData) (now : Nat) :
    (updateWorkflowRun r d now).timeline = d.timeline.getD r.timeline := rfl

@[simp] theorem updateRun_retryCount (r : WorkflowRun) (d : UpdateData) (now : Nat) :
    (updateWorkflowRun r d now).retryCount = d.retryCount.getD r.retryCount := rfl

@[simp] theorem updateRun_output (r : WorkflowRun) (d : UpdateData) (now : Nat) :
    (updateWorkflowRun r d now).output = d.output.getD r.output := rfl

/-! ## Per-operation preservation lemmas -/

/-- Any single engine operation preserves an existing timeline output:
every writer is guarded by an `output !== undefined` check on the key it
writes, and wait-for marker writes never touch `output` fields (deep
merge). -/
theorem outputAt_applyOp (op : EngineOp) (r : WorkflowRun) (S : String) (v : JsonVal)
    (h : outputAt r.timeline S = some v) :
    outputAt (applyOp op r).timeline S = some v := by
  cases op with
  | stepRun sid body now =>
    simp only [applyOp, runStep, runStepTx]
    by_cases hb : statusBlocksStep r.status
    · simp [hb, h]
    · simp only [hb, Bool.false_eq_true, if_false]
      cases hmiss : outputAt r.timeline sid with
      | some w => simp [h]
      | none =>
        have hne : ¬ sid = S := fun he => by rw [he, h] at hmiss; cases hmiss
        cases body with
        | ok w =>
          simp [updateWorkflowRun, outputAt_setOutput, hne, h]
        | thrown msg stack => simp [h]
  | stepWaitFor sid eventName timeoutMs now =>
    simp only [applyOp, waitForEvent]
    by_cases hb : statusBlocksStep r.status
    · simp [hb, h]
    · simp only [hb, Bool.false_eq_true, if_false]
      cases hmiss : outputAt r.timeline sid with
      | some w => simp [h]
      | none => simp [updateWorkflowRun, outputAt_setWaitFor, h]
  | resume eventName eventData jobId now =>
    simp only [applyOp, eventResume]
    by_cases hp : r.status != WorkflowStatus.paused
    · simp [hp, h]
    · simp only [hp, Bool.false_eq_true, if_false]
      cases hw : waitForAt r.timeline (r.currentStepId ++ "-wait-for") with
      | none => simp [hw, h]
      | some w =>
        by_cases hm : eventName == some w.eventName &&
            (outputAt r.timeline r.currentStepId).isNone
        · have hnone : outputAt r.timeline r.currentStepId = none := by
            have h2 := ((Bool.and_eq_true _ _).mp hm).2
            simpa [Option.isNone_iff_eq_none] using h2
          have hne : ¬ r.currentStepId = S := fun he => by rw [he, h] at hnone; cases hnone
          simp [hw, hm, updateWorkflowRun, outputAt_setOutput, hne, h]
        · simp [hw, hm, h]
  | complete steps result jobId now =>
    simp only [applyOp, dispatchComplete]
    by_cases hg : r.status == WorkflowStatus.running && steps.getLast? == some r.currentStepId
    · simp [hg, h]
    · simp [hg, h]
  | failDispatch errMsg jobId now =>
    simp only [applyOp, dispatchCatch]
    by_cases hg : r.retryCount < r.maxRetries
    · simp [hg, h]
    · simp [hg, h]
  | pauseApi now => simpa [applyOp, pauseWorkflow] using h
  | cancelApi now => simpa [applyOp, cancelWorkflowRun] using h

/-! ## Trace counters for the write-once property -/

/-- Number of times the operations in `ops`, applied from state `r`, invoke
the user body of step `S` (see `invokesBodyAt`). -/
def bodyInvocations (S : String) : WorkflowRun → List EngineOp → Nat
  | _, [] => 0
  | r, op :: ops =>
    (if invokesBodyAt op r S then 1 else 0) + bodyInvocations S (applyOp op r) ops

/-- Number of operations in `ops` that change the timeline output stored
under key `S` (including creating it). -/
def outputWrites (S : String) : WorkflowRun → List EngineOp → Nat
  | _, [] => 0
  | r, op :: ops =>
    (if outputAt (applyOp op r).timeline S = outputAt r.timeline S then 0 else 1) +
      outputWrites S (applyOp op r) ops

theorem outputAt_applyOps (ops : List EngineOp) (r : WorkflowRun) (S : String) (v : JsonVal)
    (h : outputAt r.timeline S = some v) :
    outputAt (applyOps ops r).timeline S = some v := by
  induction ops generalizing r with
  | nil => simpa [applyOps] using h
  | cons op ops ih => exact ih (applyOp op r) (outputAt_applyOp op r S v h)

theorem bodyInvocations_of_some (ops : List EngineOp) (r : WorkflowRun) (S : String)
    (v : JsonVal) (h : outputAt r.timeline S = some v) :
    bodyInvocations S r ops = 0 := by
  induction ops generalizing r with
  | nil => rfl
  | cons op ops ih =>
    have hnb : invokesBodyAt op r S = false := by
      cases op <;> simp [invokesBodyAt, h]
    simp only [bodyInvocations, hnb, Bool.false_eq_true, if_false, Nat.zero_add]
    exact ih (applyOp op r) (outputAt_applyOp op r S v h)

theorem outputWrites_of_some (ops : List EngineOp) (r : WorkflowRun) (S : String)
    (v : JsonVal) (h : outputAt r.timeline S = some v) :
    outputWrites S r ops = 0 := by
  induction ops generalizing r with
  | nil => rfl
  | cons op ops ih =>
    have hpres := outputAt_applyOp op r S v h
    simp only [outputWrites, hpres, h, if_true, Nat.zero_add]
    exact ih (applyOp op r) hpres

theorem outputWrites_le_one (ops : List EngineOp) (r : WorkflowRun) (S : String) :
    outputWrites S r ops ≤ 1 := by
  induction ops generalizing r with
  | nil => exact Nat.zero_le 1
  | cons op ops ih =>
    by_cases hch : outputAt (applyOp op r).timeline S = outputAt r.timeline S
    · simpa [outputWrites, hch] using ih (applyOp op r)
    · cases hpre : outputAt r.timeline S with
      | some v => exact absurd (outputAt_applyOp op r S v hpre) (by rw [hpre] at hch; exact hch)
      | none =>
        cases hpost : outputAt (applyOp op r).timeline S with
        | none => rw [hpre] at hch; exact absurd hpost hch
        | some w =>
          have hz := outputWrites_of_some ops (applyOp op r) S w hpost
          simp [outputWrites, hch, hz]

/-! ## The paused-run invariant -/

/-- The claimed invariant of §8(5): a PAUSED run has a wait-for marker at
`"<currentStepId>-wait-for"` and no output entry at `currentStepId`. -/
def PausedInv (r : WorkflowRun) : Prop :=
  r.status = WorkflowStatus.paused →
    (waitForAt r.timeline (r.currentStepId ++ "-wait-for")).isSome = true ∧
    outputAt r.timeline r.currentStepId = none

instance (r : WorkflowRun) : Decidable (PausedInv r) := by
  unfold PausedInv; infer_instance

/-- `op` is an invocation of the public `pauseWorkflow` API. -/
def isPauseApi (op : EngineOp) : Bool :=
  match op with
  | EngineOp.pauseApi _ => true
  | _ => false

theorem statusBlocksStep_false_ne_paused {s : WorkflowStatus}
    (h : statusBlocksStep s = false) : s ≠ WorkflowStatus.paused := by
  intro he
  subst he
  simp [statusBlocksStep] at h

theorem pausedInv_applyOp (op : EngineOp) (r : WorkflowRun)
    (hop : isPauseApi op = false) (h : PausedInv r) : PausedInv (applyOp op r) := by
  cases op with
  | stepRun sid body now =>
    simp only [applyOp, runStep, runStepTx]
    by_cases hb : statusBlocksStep r.status
    · simpa [hb] using h
    · simp only [hb, Bool.false_eq_true, if_false]
      have hnp := statusBlocksStep_false_ne_paused (by simpa using hb)
      cases hmiss : outputAt r.timeline sid with
      | some w => simpa using h
      | none =>
        cases body with
        | ok w =>
          intro hpost
          exact absurd (by simpa using hpost) hnp
        | thrown msg stack => simpa using h
  | stepWaitFor sid eventName timeoutMs now =>
    simp only [applyOp, waitForEvent]
    by_cases hb : statusBlocksStep r.status
    · simpa [hb] using h
    · simp only [hb, Bool.false_eq_true, if_false]
      cases hmiss : outputAt r.timeline sid with
      | some w => simpa using h
      | none =>
        intro _
        constructor
        · simp [waitForAt_setWaitFor_self]
        · simp [outputAt_setWaitFor, hmiss]
  | resume eventName eventData jobId now =>
    simp only [applyOp, eventResume]
    by_cases hp : r.status != WorkflowStatus.paused
    · simpa [hp] using h
    · simp only [hp, Bool.false_eq_true, if_false]
      by_cases hm : (match waitForAt r.timeline (r.currentStepId ++ "-wait-for") with
          | some w => eventName == some w.eventName &&
              (outputAt r.timeline r.currentStepId).isNone
          | none => false)
      · simp only [hm, if_true]
        intro hpost
        simp at hpost
      · simp only [hm, if_false]
        intro hpost
        simp at hpost
  | complete steps result jobId now =>
    simp only [applyOp, dispatchComplete]
    by_cases hg : r.status == WorkflowStatus.running && steps.getLast? == some r.currentStepId
    · simp only [hg, if_true]
      intro hpost
      simp at hpost
    · simpa [hg] using h
  | failDispatch errMsg jobId now =>
    simp only [applyOp, dispatchCatch]
    by_cases hg : r.retryCount < r.maxRetries
    · simp only [hg, if_true]
      intro hpost
      have : r.status = WorkflowStatus.paused := by simpa using hpost
      simpa using h this
    · simp only [hg, if_false]
      intro hpost
      simp at hpost
  | pauseApi now => simp [isPauseApi] at hop
  | cancelApi now =>
    simp only [applyOp, cancelWorkflowRun]
    intro hpost
    simp at hpost

theorem pausedInv_applyOps (ops : List EngineOp) (r : WorkflowRun)
    (hops : ∀ op ∈ ops, isPauseApi op = false) (h : PausedInv r) :
    PausedInv (applyOps ops r) := by
  induction ops generalizing r with
  | nil => simpa [applyOps] using h
  | cons op ops ih =>
    exact ih (applyOp op r) (fun o ho => hops o (List.mem_cons_of_mem op ho))
      (pausedInv_applyOp op r (hops op (List.mem_cons_self op ops)) h)

/-! ## Frame of engine mutations -/

/-- The row fields for which `updateWorkflowRun` builds no `SET` clause. -/
def sameFrame (a b : WorkflowRun) : Prop :=
  a.id = b.id ∧ a.createdAt = b.createdAt ∧ a.workflowId = b.workflowId ∧
    a.resourceId = b.resourceId ∧ a.input = b.input ∧ a.maxRetries = b.maxRetries ∧
    a.timeoutAt = b.timeoutAt ∧ a.cron = b.cron ∧ a.timezone = b.timezone

theorem sameFrame_applyOp (op : EngineOp) (r : WorkflowRun) :
    sameFrame (applyOp op r) r := by
  cases op with
  | stepRun sid body now =>
    simp only [applyOp, runStep, runStepTx]
    by_cases hb : statusBlocksStep r.status
    · simp [hb, sameFrame]
    · simp only [hb, Bool.false_eq_true, if_false]
      cases outputAt r.timeline sid with
      | some w => simp [sameFrame]
      | none => cases body <;> simp [sameFrame]
  | stepWaitFor sid eventName timeoutMs now =>
    simp only [applyOp, waitForEvent]
    (repeat' split) <;> simp [sameFrame]
  | resume eventName eventData jobId now =>
    simp only [applyOp, eventResume]
    (repeat' split) <;> simp [sameFrame]
  | complete steps result jobId now =>
    simp only [applyOp, dispatchComplete]
    (repeat' split) <;> simp [sameFrame]
  | failDispatch errMsg jobId now =>
    simp only [applyOp, dispatchCatch]
    (repeat' split) <;> simp [sameFrame]
  | pauseApi now => simp [applyOp, pauseWorkflow, sameFrame]
  | cancelApi now => simp [applyOp, cancelWorkflowRun, sameFrame]

@[simp] theorem updateRun_error (r : WorkflowRun) (d : UpdateData) (now : Nat) :
    (updateWorkflowRun r d now).error =
      match d.error with | some e => some e | none => r.error := rfl

@[simp] theorem updateRun_completedAt (r : WorkflowRun) (d : UpdateData) (now : Nat) :
    (updateWorkflowRun r d now).completedAt =
      match d.completedAt with | some t => some t | none => r.completedAt := rfl

/-! ## Concrete states used by witnesses and counterexamples -/

/-- A freshly inserted run of a one-step workflow (`retries: 3`):
`status=RUNNING`, `currentStepId="s1"`, empty timeline, `retryCount=0`. -/
def demoRun : WorkflowRun :=
  insertWorkflowRun "run_0" "wf" "s1" none (JsonVal.obj []) 3 none none none 1

/-- As `demoRun` but with `retries: 0`, so the first dispatch failure is
terminal. -/
def demoRunNoRetry : WorkflowRun :=
  insertWorkflowRun "run_0" "wf" "s1" none (JsonVal.obj []) 0 none none none 1

/-- `demoRun` after its step `"a"` cached an output. -/
def cachedRun : WorkflowRun :=
  (runStep demoRun "a" (BodyResult.ok (some (JsonVal.num 7))) 2).1

/-- Operations applied after `cachedRun`: a replayed `step.run('a')`, an
event-resume dispatch and a cancellation. -/
def traceOps : List EngineOp :=
  [EngineOp.stepRun "a" (BodyResult.ok (some (JsonVal.num 99))) 3,
   EngineOp.resume (some "e") none "job-1" 4,
   EngineOp.cancelApi 5]

/-- `demoRun` paused by `step.waitFor('s1', {eventName: 'approve'})`. -/
def pausedByWaitFor : WorkflowRun :=
  applyOp (EngineOp.stepWaitFor "s1" "approve" none 2) demoRun

/-- `pausedByWaitFor` after the dispatcher delivered the matching event. -/
def resumedRun : WorkflowRun :=
  applyOp (EngineOp.resume (some "approve")
    (some (JsonVal.obj [("ok", JsonPrim.boolean true)])) "job-2" 3) pausedByWaitFor

/-- `demoRun` completed by the dispatcher's post-handler check. -/
def completedRun : WorkflowRun :=
  (dispatchComplete ["s1"] (some (JsonVal.str "done")) "job-1" 4 demoRun).1

/-- `demoRunNoRetry` after its step succeeded and the handler then threw with
no retries left: a FAILED run whose timeline has an output for every step. -/
def failedFullRun : WorkflowRun :=
  applyOp (EngineOp.failDispatch "boom after step" "job-1" 3)
    (applyOp (EngineOp.stepRun "s1" (BodyResult.ok (some (JsonVal.str "done"))) 2) demoRunNoRetry)

/-- Two `startWorkflow` calls with the same `workflowId` and the same
`idempotencyKey: 'key-1'`, the second while the first run is still active;
returns the pair of runs the two calls handed back. -/
def startTwiceWithSameKey : Option (WorkflowRun × WorkflowRun) :=
  match startWorkflow [] 0 "idemp-basic" ["wait"] none (JsonVal.obj []) none none
      (some "key-1") 1 with
  | Except.ok (db1, r1, n1) =>
    match startWorkflow db1 n1 "idemp-basic" ["wait"] none (JsonVal.obj []) none none
        (some "key-1") 2 with
    | Except.ok (_, r2, _) => some (r1, r2)
    | Except.error _ => none
  | Except.error _ => none

/-! ## Claim C1 -/

/-- C1: once a run's timeline contains an output entry under step id `S`
(`outputAt … = some v`), no later engine operation — `step.run`,
`step.waitFor`, dispatcher event-resume, completion, retry bookkeeping,
pause or cancel — changes that value; the step body for `S` is never invoked
again; no further output write to `S` occurs; and along any operation
sequence at most one output write to `S` ever happens. -/
theorem C1_output_write_once (r : WorkflowRun) (ops : List EngineOp) (S : String)
    (v : JsonVal) (h : outputAt r.timeline S = some v) :
    outputAt (applyOps ops r).timeline S = some v ∧
    bodyInvocations S r ops = 0 ∧
    outputWrites S r ops = 0 ∧
    ∀ r' : WorkflowRun, ∀ ops' : List EngineOp, outputWrites S r' ops' ≤ 1 :=
  ⟨outputAt_applyOps ops r S v h, bodyInvocations_of_some ops r S v h,
   outputWrites_of_some ops r S v h, fun r' ops' => outputWrites_le_one ops' r' S⟩

/-- Witness for C1 at a concrete cached step and a concrete later history. -/
theorem C1_output_write_once_witness :
    outputAt cachedRun.timeline "a" = some (JsonVal.num 7) ∧
    outputAt (applyOps traceOps cachedRun).timeline "a" = some (JsonVal.num 7) ∧
    bodyInvocations "a" cachedRun traceOps = 0 ∧
    outputWrites "a" cachedRun traceOps = 0 :=
  ⟨by decide,
   (C1_output_write_once cachedRun traceOps "a" (JsonVal.num 7) (by decide)).1,
   (C1_output_write_once cachedRun traceOps "a" (JsonVal.num 7) (by decide)).2.1,
   (C1_output_write_once cachedRun traceOps "a" (JsonVal.num 7) (by decide)).2.2.1⟩

/-! ## Claim C3 -/

/-- C3 counterexample: the public `pauseWorkflow` API pauses a freshly
inserted RUNNING run without writing any wait-for marker, so the PAUSED run
violates the claimed invariant. -/
theorem C3_pauseWorkflow_counterexample :
    (pauseWorkflow demoRun 5).status = WorkflowStatus.paused ∧
    waitForAt (pauseWorkflow demoRun 5).timeline
      ((pauseWorkflow demoRun 5).currentStepId ++ "-wait-for") = none ∧
    ¬ PausedInv (pauseWorkflow demoRun 5) := by decide

/-- C3 amended: for every run whose history avoids the public
`pauseWorkflow` API (i.e. every pause is entered through
`step.waitFor`/`pause`/`waitUntil`), the invariant holds: a PAUSED run has a
wait-for marker at `"<currentStepId>-wait-for"` and no output entry at
`currentStepId`. -/
theorem C3_paused_marker_amended (r : WorkflowRun) (ops : List EngineOp)
    (h : PausedInv r) (hops : ∀ op ∈ ops, isPauseApi op = false) :
    PausedInv (applyOps ops r) :=
  pausedInv_applyOps ops r hops h

/-- Witness for C3 on a concrete waitFor-induced pause. -/
theorem C3_paused_marker_amended_witness :
    PausedInv demoRun ∧
    (applyOps [EngineOp.stepWaitFor "s1" "approve" none 2] demoRun).status =
      WorkflowStatus.paused ∧
    PausedInv (applyOps [EngineOp.stepWaitFor "s1" "approve" none 2] demoRun) :=
  ⟨by decide, by decide,
   C3_paused_marker_amended demoRun [EngineOp.stepWaitFor "s1" "approve" none 2]
     (by decide) (by decide)⟩

/-! ## Claim C4 -/

/-- C4 counterexample: a throwing step body leaves the persisted row exactly
as it was — the `status=FAILED` / `error=message+stack` update issued in the
catch block is rolled back with the rest of the transaction, so later reads
see a RUNNING row with no error. -/
theorem C4_rollback_counterexample :
    runStep demoRun "s1" (BodyResult.thrown "boom" "stacktrace") 2 =
      (demoRun, StepOutcome.threw "boom" "stacktrace") ∧
    demoRun.status = WorkflowStatus.running ∧
    demoRun.error = none := by decide

/-- C4 amended: when a step body throws, `runStep` issues the
`status=FAILED, error=message+stack` update inside the open transaction, but
the rethrow makes `withPostgresTransaction` ROLLBACK, so nothing is
persisted: the committed row is unchanged and the exception reaches the
dispatcher with the run still in its prior status.  (FAILED, message only,
is persisted later by the dispatcher once retries are exhausted.) -/
theorem C4_step_failure_amended (r : WorkflowRun) (sid msg stack : String) (now : Nat)
    (hs : statusBlocksStep r.status = false) (hmiss : outputAt r.timeline sid = none) :
    runStep r sid (BodyResult.thrown msg stack) now = (r, StepOutcome.threw msg stack) ∧
    ∃ rf, runStepTx r sid (BodyResult.thrown msg stack) now = Except.error (msg, stack, rf) ∧
      rf.status = WorkflowStatus.failed ∧
      rf.error = some (msg ++ "\n" ++ stack) ∧
      rf.currentStepId = sid := by
  refine ⟨?_, ?_⟩
  · simp [runStep, runStepTx, hs, hmiss]
  · refine ⟨updateWorkflowRun (updateWorkflowRun r { currentStepId := some sid } now)
      { status := some WorkflowStatus.failed, error := some (msg ++ "\n" ++ stack) } now,
      ?_, ?_, ?_, ?_⟩ <;> simp [runStepTx, hs, hmiss]

/-- Witness for C4 at a concrete RUNNING run and throwing body. -/
theorem C4_step_failure_amended_witness :
    statusBlocksStep demoRun.status = false ∧
    outputAt demoRun.timeline "s1" = none ∧
    runStep demoRun "s1" (BodyResult.thrown "boom" "st" ) 2 =
      (demoRun, StepOutcome.threw "boom" "st" ) :=
  ⟨by decide, by decide,
   (C4_step_failure_amended demoRun "s1" "boom" "st" 2 (by decide) (by decide)).1⟩

/-! ## Claim C5 -/

/-- C5 (code bug): the dispatcher's retry delay is the hardcoded
`2 ** retryCount * 1000` — for the third retry 4000 ms — and never the
configured `min(factor^(k-1)*minDelay, maxDelay)`; for the claim's
`{factor: 10, minDelay: 500, maxDelay: 1500}` the third retry should be
1500 ms.  The engine exposes no `retry` configuration at all (its options
carry only `retries`), although its own test suite configures and asserts
one. -/
theorem C5_backoff_ignored :
    retryDelay 0 = 1000 ∧ retryDelay 1 = 2000 ∧ retryDelay 2 = 4000 ∧
    specBackoffDelay 10 500 (some 1500) 3 = 1500 ∧
    retryDelay 2 ≠ specBackoffDelay 10 500 (some 1500) 3 := by decide

/-! ## Claim C6 -/

/-- C6 (code bug): two `startWorkflow` calls with the same `workflowId` and
idempotency key `"key-1"`, the second issued while the first run is still
RUNNING (non-terminal), both insert fresh rows: the second call returns a
new run with a different id instead of the existing active run.  The
source's parameter destructuring drops `idempotencyKey`; no lookup for an
existing run happens. -/
theorem C6_idempotency_ignored :
    (startTwiceWithSameKey.map (fun p => (p.1.status, p.1.id, p.2.id))) =
      some (WorkflowStatus.running, "run_0", "run_1") ∧
    ("run_0" : String) ≠ "run_1" := by
  exact ⟨by rfl, by decide⟩

/-! ## Claim C10 -/

/-- C10: every update of a run row through `updateWorkflowRun` — and hence
every engine mutation of an existing run — leaves `id`, `createdAt`,
`workflowId`, `resourceId`, `input`, `maxRetries`, `timeoutAt`, `cron` and
`timezone` unchanged whatever partial data is supplied, and always sets
`updatedAt` to the current time. -/
theorem C10_update_frame :
    (∀ r : WorkflowRun, ∀ d : UpdateData, ∀ now : Nat,
      sameFrame (updateWorkflowRun r d now) r ∧ (updateWorkflowRun r d now).updatedAt = now) ∧
    (∀ op : EngineOp, ∀ r : WorkflowRun, sameFrame (applyOp op r) r) :=
  ⟨fun r d now => ⟨by simp [sameFrame], rfl⟩, sameFrame_applyOp⟩

/-! ## Claim C2 -/

/-- C2 counterexample: a handler that resolves to `null` completes with
`output = null`, not `{}` — the source normalises only `undefined`
(`result === undefined ? {} : result`), while the claim's `output=result??{}`
(nullish coalescing) would also replace `null`. -/
theorem C2_null_output_counterexample :
    (dispatchComplete ["s1"] (some JsonVal.null) "job-1" 9 demoRun).1.status =
      WorkflowStatus.completed ∧
    (dispatchComplete ["s1"] (some JsonVal.null) "job-1" 9 demoRun).1.output = JsonVal.null ∧
    specNullishOutput (some JsonVal.null) = JsonVal.obj [] ∧
    JsonVal.null ≠ JsonVal.obj [] := by decide

/-- C2 amended: a run's status becomes COMPLETED only through the
dispatcher's post-handler check, and only when the reloaded run is RUNNING
with `currentStepId` equal to the last id of the workflow's static step
list; on that transition `output` is set to the handler's result with `{}`
substituted exactly when the result is `undefined` (a `null` result is
stored as `null`), `completedAt` is set to the current time, and `onSuccess`
then `onComplete({ok:true, output})` are invoked. -/
theorem C2_completion_amended :
    (∀ op : EngineOp, ∀ r : WorkflowRun,
      (applyOp op r).status = WorkflowStatus.completed →
      r.status = WorkflowStatus.completed ∨
      ∃ steps result jobId now, op = EngineOp.complete steps result jobId now ∧
        r.status = WorkflowStatus.running ∧ steps.getLast? = some r.currentStepId) ∧
    (∀ steps : List String, ∀ result : Option JsonVal, ∀ jobId : String, ∀ now : Nat,
      ∀ r : WorkflowRun, r.status = WorkflowStatus.running →
      steps.getLast? = some r.currentStepId →
      (dispatchComplete steps result jobId now r).1.status = WorkflowStatus.completed ∧
      (dispatchComplete steps result jobId now r).1.output = normalizeResult result ∧
      (dispatchComplete steps result jobId now r).1.completedAt = some now ∧
      (dispatchComplete steps result jobId now r).2 =
        [HookCall.onSuccess (normalizeResult result),
         HookCall.onComplete true (normalizeResult result)]) := by
  constructor
  · intro op r h
    cases op with
    | stepRun sid body now =>
      have hst : (applyOp (EngineOp.stepRun sid body now) r).status = r.status := by
        simp only [applyOp, runStep, runStepTx]
        by_cases hb : statusBlocksStep r.status
        · simp [hb]
        · simp only [hb, Bool.false_eq_true, if_false]
          cases outputAt r.timeline sid with
          | some w => simp
          | none => cases body <;> simp
      exact Or.inl (hst ▸ h)
    | stepWaitFor sid eventName timeoutMs now =>
      simp only [applyOp, waitForEvent] at h
      by_cases hb : statusBlocksStep r.status
      · simp only [hb, if_true] at h
        exact Or.inl h
      · simp only [hb, Bool.false_eq_true, if_false] at h
        cases hmiss : outputAt r.timeline sid with
        | some w => simp only [hmiss] at h; exact Or.inl h
        | none => simp [hmiss] at h
    | resume eventName eventData jobId now =>
      simp only [applyOp, eventResume] at h
      by_cases hp : r.status != WorkflowStatus.paused
      · simp only [hp, if_true] at h
        exact Or.inl h
      · simp only [hp, Bool.false_eq_true, if_false] at h
        by_cases hm : (match waitForAt r.timeline (r.currentStepId ++ "-wait-for") with
            | some w => eventName == some w.eventName &&
                (outputAt r.timeline r.currentStepId).isNone
            | none => false)
        · simp [hm] at h
        · simp [hm] at h
    | complete steps result jobId now =>
      simp only [applyOp, dispatchComplete] at h
      by_cases hg : r.status == WorkflowStatus.running &&
          steps.getLast? == some r.currentStepId
      · have hg' := (Bool.and_eq_true _ _).mp hg
        exact Or.inr ⟨steps, result, jobId, now, rfl,
          by simpa using hg'.1, by simpa using hg'.2⟩
      · simp only [hg, Bool.false_eq_true, if_false] at h
        exact Or.inl h
    | failDispatch errMsg jobId now =>
      simp only [applyOp, dispatchCatch] at h
      by_cases hg : r.retryCount < r.maxRetries
      · simp only [hg, if_true] at h
        exact Or.inl (by simpa using h)
      · simp [hg] at h
    | pauseApi now => simp [applyOp, pauseWorkflow] at h
    | cancelApi now => simp [applyOp, cancelWorkflowRun] at h
  · intro steps result jobId now r h1 h2
    have hg : (r.status == WorkflowStatus.running &&
        steps.getLast? == some r.currentStepId) = true := by
      simp [h1, h2]
    simp [dispatchComplete, hg]

/-- Witness for C2 on a concrete RUNNING run at the last static step. -/
theorem C2_completion_amended_witness :
    demoRun.status = WorkflowStatus.running ∧
    (["s1"].getLast? = some demoRun.currentStepId) ∧
    (dispatchComplete ["s1"] (some (JsonVal.str "done")) "job-1" 4 demoRun).1.status =
      WorkflowStatus.completed ∧
    (dispatchComplete ["s1"] (some (JsonVal.str "done")) "job-1" 4 demoRun).1.output =
      JsonVal.str "done" :=
  ⟨by decide, by decide,
   (C2_completion_amended.2 ["s1"] (some (JsonVal.str "done")) "job-1" 4 demoRun
     (by decide) (by decide)).1,
   (C2_completion_amended.2 ["s1"] (some (JsonVal.str "done")) "job-1" 4 demoRun
     (by decide) (by decide)).2.1⟩

/-! ## Claim C7 -/

/-- C7 counterexample: `onStart` fires on the first dispatch of a fresh run
(`retryCount == 0`), the run pauses on a `waitFor`, and the event-delivery
dispatch — still `retryCount == 0` — fires `onStart` again: the hook is not
once-per-run. -/
theorem C7_onStart_counterexample :
    onStartFires demoRun = true ∧
    pausedByWaitFor.status = WorkflowStatus.paused ∧
    resumedRun.status = WorkflowStatus.running ∧
    onStartFires resumedRun = true := by decide

/-- C7 amended: the dispatcher invokes `onStart` on every dispatch whose run
has `retryCount == 0` — hence on the first dispatch and again on any
event-delivery/resume dispatch of a run that never failed — and never on a
retry dispatch, because the retry path increments `retryCount` before
re-enqueueing. -/
theorem C7_onStart_amended (r : WorkflowRun) (m jid : String) (now : Nat)
    (en : Option String) (ed : Option JsonVal) :
    (r.retryCount < r.maxRetries →
      onStartFires (applyOp (EngineOp.failDispatch m jid now) r) = false) ∧
    (r.retryCount = 0 → onStartFires r = true) ∧
    (r.retryCount = 0 →
      onStartFires (applyOp (EngineOp.resume en ed jid now) r) = true) := by
  refine ⟨?_, ?_, ?_⟩
  · intro h
    simp [applyOp, dispatchCatch, h, onStartFires]
  · intro h
    simp [onStartFires, h]
  · intro h
    simp only [applyOp, eventResume]
    by_cases hp : r.status != WorkflowStatus.paused
    · simp [hp, onStartFires, h]
    · simp only [hp, Bool.false_eq_true, if_false]
      by_cases hm : (match waitForAt r.timeline (r.currentStepId ++ "-wait-for") with
          | some w => en == some w.eventName &&
              (outputAt r.timeline r.currentStepId).isNone
          | none => false)
      · simp [hm, onStartFires, h]
      · simp [hm, onStartFires, h]

/-- Witness for C7 at a concrete fresh run. -/
theorem C7_onStart_amended_witness :
    demoRun.retryCount < demoRun.maxRetries ∧
    demoRun.retryCount = 0 ∧
    onStartFires (applyOp (EngineOp.failDispatch "boom" "job-1" 3) demoRun) = false ∧
    onStartFires (applyOp (EngineOp.resume (some "approve") none "job-2" 3) demoRun) = true :=
  ⟨by decide, by decide,
   (C7_onStart_amended demoRun "boom" "job-1" 3 (some "approve") none).1 (by decide),
   (C7_onStart_amended demoRun "boom" "job-1" 3 (some "approve") none).2.2 (by decide)⟩

/-! ## Claim C8 -/

/-- C8 counterexample: a reachable FAILED run (step succeeded, handler then
threw with `retries: 0`) whose timeline holds an output for every static
step reports `completionPercentage = 100` even though its status is FAILED,
refuting the "iff COMPLETED" direction. -/
theorem C8_percentage_counterexample :
    failedFullRun.status = WorkflowStatus.failed ∧
    completionPercentage ["s1"] failedFullRun = 100 := by
  refine ⟨by decide, ?_⟩
  have h1 : (failedFullRun.status == WorkflowStatus.completed) = false := by decide
  have h2 : (failedFullRun.status == WorkflowStatus.failed ||
      failedFullRun.status == WorkflowStatus.cancelled) = true := by decide
  have h3 : completedStepsCount failedFullRun.timeline = 1 := by decide
  simp only [completionPercentage, h1, h2, h3, Bool.false_eq_true, if_false, if_true,
    List.length_cons, List.length_nil]
  norm_num [mathMin, round2, jsRound]

/-- C8 amended: `checkProgress` reports `completionPercentage = 100`
whenever the run's status is COMPLETED (for a workflow with at least one
static step); the converse fails — a FAILED or CANCELLED run whose timeline
contains an output entry for at least as many keys as there are steps also
reports 100. -/
theorem C8_percentage_amended (steps : List String) (r : WorkflowRun)
    (hs : steps ≠ []) (hc : r.status = WorkflowStatus.completed) :
    completionPercentage steps r = 100 := by
  have hlen : steps.length ≠ 0 := fun h => hs (List.length_eq_zero.mp h)
  have hbeq : (r.status == WorkflowStatus.completed) = true := by simp [hc]
  simp only [completionPercentage, hlen, if_false, hbeq, if_true]
  norm_num [round2, jsRound]

/-- Witness for C8 on a concrete COMPLETED run. -/
theorem C8_percentage_amended_witness :
    (["s1"] : List String) ≠ [] ∧
    completedRun.status = WorkflowStatus.completed ∧
    completionPercentage ["s1"] completedRun = 100 :=
  ⟨by decide, by decide, C8_percentage_amended ["s1"] completedRun (by decide) (by decide)⟩

/-! ## Claim C9 -/

theorem rowMatches_of_findRun {db : List WorkflowRun} {runId : String}
    {rid : Option String} {r : WorkflowRun} (h : findRun db runId rid = some r) :
    rowMatches runId rid r = true :=
  List.find?_some h

theorem rowMatches_updateWorkflowRun (runId : String) (rid : Option String)
    (r : WorkflowRun) (d : UpdateData) (now : Nat) :
    rowMatches runId rid (updateWorkflowRun r d now) = rowMatches runId rid r := by
  cases rid <;> simp [rowMatches]

theorem findRun_map_update (db : List WorkflowRun) (runId : String) (rid : Option String)
    (r' : WorkflowRun) (h : (findRun db runId rid).isSome)
    (hm : rowMatches runId rid r' = true) :
    findRun (db.map (fun x => if rowMatches runId rid x then r' else x)) runId rid =
      some r' := by
  induction db with
  | nil => simp [findRun] at h
  | cons x xs ih =>
    by_cases hx : rowMatches runId rid x
    · simp [findRun, List.find?, hx, hm]
    · have h' : (findRun xs runId rid).isSome := by
        simpa [findRun, List.find?, hx] using h
      simpa [findRun, List.find?, hx] using ih h'

/-- C9: `cancelWorkflow` sets an existing run's status to CANCELLED with no
precondition on its current status — a COMPLETED or FAILED run is cancelled
just the same, overwriting the terminal status, and the update is visible to
later reads; the call fails ("not found") exactly when the `runId` (with the
supplied `resourceId`, if any) resolves to no row. -/
theorem C9_cancel_unconditional (db : List WorkflowRun) (runId : String)
    (resourceId : Option String) (now : Nat) :
    ((cancelWorkflowDb db runId resourceId now).isSome ↔
      (findRun db runId resourceId).isSome) ∧
    ∀ r, findRun db runId resourceId = some r →
      ∃ p, cancelWorkflowDb db runId resourceId now = some p ∧
        p.2.status = WorkflowStatus.cancelled ∧ p.2.id = r.id ∧
        p.2.timeline = r.timeline ∧ p.2.output = r.output ∧
        findRun p.1 runId resourceId = some p.2 := by
  unfold cancelWorkflowDb updateRunInDb
  cases hf : findRun db runId resourceId with
  | none =>
    refine ⟨by simp, ?_⟩
    intro r hr
    cases hr
  | some r0 =>
    refine ⟨by simp, ?_⟩
    intro r hr
    obtain rfl : r0 = r := Option.some.inj hr
    refine ⟨_, rfl, by simp, by simp, by simp, by simp, ?_⟩
    apply findRun_map_update
    · rw [hf]; rfl
    · rw [rowMatches_updateWorkflowRun]
      exact rowMatches_of_findRun hf

/-- Witness for C9: cancelling a COMPLETED run succeeds and overwrites the
terminal status. -/
theorem C9_cancel_unconditional_witness :
    findRun [completedRun] "run_0" none = some completedRun ∧
    completedRun.status = WorkflowStatus.completed ∧
    ∃ p, cancelWorkflowDb [completedRun] "run_0" none 7 = some p ∧
      p.2.status = WorkflowStatus.cancelled := by
  refine ⟨by decide, by decide, ?_⟩
  obtain ⟨p, hp, hst, -, -, -, -⟩ :=
    (C9_cancel_unconditional [completedRun] "run_0" none 7).2 completedRun (by decide)
  exact ⟨p, hp, hst⟩
